import Mathlib

/-!
Verification of the MT5 technical-analysis service core.

This file gives a shallow embedding, in Lean 4, of the algorithmic core of
the trading-alerts MT5 service:

* `_calculate_fractals` (app/services/indicator_reader.py) — the MQL5-style
  fractal (local extremum) detector;
* `_find_horizontal_clusters` (same file) — the horizontal
  support/resistance clustering pass;
* `_calculate_diagonal_lines` (same file) — the diagonal trend-line
  synthesis pass;
* `MT5Connection` / `MT5ConnectionPool` (app/services/mt5_connection_pool.py)
  — connection state transitions, symbol lookup and health aggregation.

Prices are embedded as rationals (the Python code uses binary floats; every
comparison appearing in the verified claims is exact on the inputs used, so
the rational embedding is faithful for them), times as integers (seconds
since epoch, as in the source).  Effectful operations (connect, liveness
check) are embedded as pure state transformers parameterized by an explicit
outcome oracle describing what the external MT5 terminal did.
-/

/-- Python's `abs` on rationals, written so that it reduces inside the
kernel (`decide`); equal to Mathlib's `|·|` by `rabs_eq_abs`. -/
def rabs (x : ℚ) : ℚ :=
  if x < 0 then -x else x

lemma rabs_eq_abs (x : ℚ) : rabs x = |x| := by
  unfold rabs
  split
  · exact (abs_of_neg (by assumption)).symm
  · exact (abs_of_nonneg (by linarith [not_lt.mp (by assumption)])).symm

/-- One OHLC bar.  Only the fields read by the verified algorithms
(`time`, `high`, `low` — see `_calculate_fractals`) are carried. -/
structure Bar where
  time : ℤ
  high : ℚ
  low : ℚ
  deriving Repr, DecidableEq

instance : Inhabited Bar := ⟨⟨0, 0, 0⟩⟩

/-- A fractal point as produced by `_calculate_fractals`:
`{'time': ..., 'value': ..., 'bar_index': ...}`. -/
structure FractalPoint where
  time : ℤ
  value : ℚ
  barIndex : ℕ
  deriving Repr, DecidableEq

instance : Inhabited FractalPoint := ⟨⟨0, 0, 0⟩⟩

/-- The result of `_calculate_fractals`: `{'peaks': ..., 'bottoms': ...}`. -/
structure Fractals where
  peaks : List FractalPoint
  bottoms : List FractalPoint
  deriving Repr, DecidableEq

/-- The peak (upper fractal) test of `_calculate_fractals` at candidate
index `i`: the loop over `j in range(1, side_bars+1)` sets `is_peak` to
`False` when `center_high <= rates[i-j].high` (left side, so the center
must be strictly greater than every left bar) and, in a second loop, when
`center_high < rates[i+j].high` (right side, so the center must be
greater-or-equal to every right bar).  `j+1` below ranges over
`1..side_bars` as `j` ranges over `range side_bars`. -/
def isPeakAt (rates : List Bar) (sideBars i : ℕ) : Bool :=
  ((List.range sideBars).all fun j =>
    decide ((rates.getD (i - (j + 1)) default).high < (rates.getD i default).high))
  &&
  ((List.range sideBars).all fun j =>
    decide ((rates.getD (i + (j + 1)) default).high ≤ (rates.getD i default).high))

/-- The bottom (lower fractal) test of `_calculate_fractals` at candidate
index `i`: `is_bottom` is cleared when `center_low >= rates[i-j].low`
(left side: strictly less required) or when `center_low > rates[i+j].low`
(right side: less-or-equal required). -/
def isBottomAt (rates : List Bar) (sideBars i : ℕ) : Bool :=
  ((List.range sideBars).all fun j =>
    decide ((rates.getD i default).low < (rates.getD (i - (j + 1)) default).low))
  &&
  ((List.range sideBars).all fun j =>
    decide ((rates.getD i default).low ≤ (rates.getD (i + (j + 1)) default).low))

/-- The candidate indices `range(side_bars, len(rates) - side_bars)` of the
main loop of `_calculate_fractals` (in the branch where
`len(rates) >= 2*side_bars + 1`). -/
def fractalCandidates (rates : List Bar) (sideBars : ℕ) : List ℕ :=
  List.range' sideBars (rates.length - 2 * sideBars)

/-- `_calculate_fractals(rates, side_bars)`: if fewer than
`2*side_bars + 1` bars are supplied the empty structure is returned
(`_empty_fractals()`); otherwise every candidate index is classified with
`isPeakAt` / `isBottomAt` and the matching `FractalPoint`s are collected in
index (= chronological) order.  The `try/except` around the loop cannot
fire in the embedding (all indexing is total), matching the fact that the
Python loop body only performs in-bounds indexing. -/
def calculateFractals (rates : List Bar) (sideBars : ℕ) : Fractals :=
  if rates.length < 2 * sideBars + 1 then ⟨[], []⟩
  else
    ⟨(fractalCandidates rates sideBars).filterMap fun i =>
        if isPeakAt rates sideBars i then
          some ⟨(rates.getD i default).time, (rates.getD i default).high, i⟩
        else none,
      (fractalCandidates rates sideBars).filterMap fun i =>
        if isBottomAt rates sideBars i then
          some ⟨(rates.getD i default).time, (rates.getD i default).low, i⟩
        else none⟩

/-- `i` is classified as a peak: some returned peak carries bar index `i`. -/
def IsPeakIndex (rates : List Bar) (sideBars i : ℕ) : Prop :=
  ∃ p ∈ (calculateFractals rates sideBars).peaks, p.barIndex = i

/-- `i` is classified as a bottom: some returned bottom carries bar index `i`. -/
def IsBottomIndex (rates : List Bar) (sideBars i : ℕ) : Prop :=
  ∃ p ∈ (calculateFractals rates sideBars).bottoms, p.barIndex = i

instance (rates : List Bar) (sideBars i : ℕ) : Decidable (IsPeakIndex rates sideBars i) := by
  unfold IsPeakIndex; infer_instance

instance (rates : List Bar) (sideBars i : ℕ) : Decidable (IsBottomIndex rates sideBars i) := by
  unfold IsBottomIndex; infer_instance

/-- The 5-bar example series of the spec: highs `[10,12,15,15,11]`
(lows taken equal to the highs; the peak test never reads them). -/
def rates5 : List Bar :=
  [⟨0, 10, 10⟩, ⟨1, 12, 12⟩, ⟨2, 15, 15⟩, ⟨3, 15, 15⟩, ⟨4, 11, 11⟩]

section FractalLemmas

lemma mem_fractalCandidates {rates : List Bar} {sideBars i : ℕ}
    (h : 2 * sideBars + 1 ≤ rates.length) :
    i ∈ fractalCandidates rates sideBars ↔ sideBars ≤ i ∧ i + sideBars < rates.length := by
  unfold fractalCandidates
  rw [List.mem_range'_1]
  omega

lemma isPeakIndex_iff {rates : List Bar} {sideBars i : ℕ}
    (h : 2 * sideBars + 1 ≤ rates.length) :
    IsPeakIndex rates sideBars i ↔
      i ∈ fractalCandidates rates sideBars ∧ isPeakAt rates sideBars i = true := by
  unfold IsPeakIndex calculateFractals
  rw [if_neg (by omega)]
  constructor
  · rintro ⟨p, hp, hpi⟩
    rcases List.mem_filterMap.mp hp with ⟨a, ha, hfa⟩
    by_cases hpk : isPeakAt rates sideBars a
    · rw [if_pos hpk] at hfa
      cases hfa
      exact ⟨hpi ▸ ha, hpi ▸ hpk⟩
    · rw [if_neg hpk] at hfa; cases hfa
  · rintro ⟨hi, hpk⟩
    exact ⟨⟨(rates.getD i default).time, (rates.getD i default).high, i⟩,
      List.mem_filterMap.mpr ⟨i, hi, by rw [if_pos hpk]⟩, rfl⟩

lemma isBottomIndex_iff {rates : List Bar} {sideBars i : ℕ}
    (h : 2 * sideBars + 1 ≤ rates.length) :
    IsBottomIndex rates sideBars i ↔
      i ∈ fractalCandidates rates sideBars ∧ isBottomAt rates sideBars i = true := by
  unfold IsBottomIndex calculateFractals
  rw [if_neg (by omega)]
  constructor
  · rintro ⟨p, hp, hpi⟩
    rcases List.mem_filterMap.mp hp with ⟨a, ha, hfa⟩
    by_cases hbt : isBottomAt rates sideBars a
    · rw [if_pos hbt] at hfa
      cases hfa
      exact ⟨hpi ▸ ha, hpi ▸ hbt⟩
    · rw [if_neg hbt] at hfa; cases hfa
  · rintro ⟨hi, hbt⟩
    exact ⟨⟨(rates.getD i default).time, (rates.getD i default).low, i⟩,
      List.mem_filterMap.mpr ⟨i, hi, by rw [if_pos hbt]⟩, rfl⟩

lemma isPeakAt_iff (rates : List Bar) (sideBars i : ℕ) :
    isPeakAt rates sideBars i = true ↔
      (∀ j, 1 ≤ j → j ≤ sideBars →
        (rates.getD (i - j) default).high < (rates.getD i default).high) ∧
      (∀ j, 1 ≤ j → j ≤ sideBars →
        (rates.getD (i + j) default).high ≤ (rates.getD i default).high) := by
  unfold isPeakAt
  rw [Bool.and_eq_true, List.all_eq_true, List.all_eq_true]
  constructor
  · rintro ⟨hL, hR⟩
    refine ⟨fun j h1 h2 => ?_, fun j h1 h2 => ?_⟩
    · have := hL (j - 1) (List.mem_range.mpr (by omega))
      rw [show j - 1 + 1 = j by omega] at this
      exact of_decide_eq_true this
    · have := hR (j - 1) (List.mem_range.mpr (by omega))
      rw [show j - 1 + 1 = j by omega] at this
      exact of_decide_eq_true this
  · rintro ⟨hL, hR⟩
    refine ⟨fun j hj => decide_eq_true ?_, fun j hj => decide_eq_true ?_⟩
    · exact hL (j + 1) (by omega) (by have := List.mem_range.mp hj; omega)
    · exact hR (j + 1) (by omega) (by have := List.mem_range.mp hj; omega)

lemma isBottomAt_iff (rates : List Bar) (sideBars i : ℕ) :
    isBottomAt rates sideBars i = true ↔
      (∀ j, 1 ≤ j → j ≤ sideBars →
        (rates.getD i default).low < (rates.getD (i - j) default).low) ∧
      (∀ j, 1 ≤ j → j ≤ sideBars →
        (rates.getD i default).low ≤ (rates.getD (i + j) default).low) := by
  unfold isBottomAt
  rw [Bool.and_eq_true, List.all_eq_true, List.all_eq_true]
  constructor
  · rintro ⟨hL, hR⟩
    refine ⟨fun j h1 h2 => ?_, fun j h1 h2 => ?_⟩
    · have := hL (j - 1) (List.mem_range.mpr (by omega))
      rw [show j - 1 + 1 = j by omega] at this
      exact of_decide_eq_true this
    · have := hR (j - 1) (List.mem_range.mpr (by omega))
      rw [show j - 1 + 1 = j by omega] at this
      exact of_decide_eq_true this
  · rintro ⟨hL, hR⟩
    refine ⟨fun j hj => decide_eq_true ?_, fun j hj => decide_eq_true ?_⟩
    · exact hL (j + 1) (by omega) (by have := List.mem_range.mp hj; omega)
    · exact hR (j + 1) (by omega) (by have := List.mem_range.mp hj; omega)

end FractalLemmas

/-- C1.  For a candidate index `i ∈ [sideBars, n-1-sideBars]` of a series
with at least `2*sideBars+1` bars, the detector classifies `i` as a Peak
iff `high[i]` is strictly greater than `high[i-j]` for every `j` in
`1..sideBars` and greater-or-equal to `high[i+j]` for every such `j`;
dually for Bottoms on the lows (strictly less on the left, less-or-equal
on the right).  In particular, on the 5-bar series with highs
`[10,12,15,15,11]` and `sideBars = 2`, index 2 is a Peak and index 3 is
not. -/
theorem fractal_classification_rule :
    (∀ (rates : List Bar) (sideBars i : ℕ),
      2 * sideBars + 1 ≤ rates.length → sideBars ≤ i → i + sideBars < rates.length →
      (IsPeakIndex rates sideBars i ↔
        (∀ j, 1 ≤ j → j ≤ sideBars →
          (rates.getD (i - j) default).high < (rates.getD i default).high) ∧
        (∀ j, 1 ≤ j → j ≤ sideBars →
          (rates.getD (i + j) default).high ≤ (rates.getD i default).high)) ∧
      (IsBottomIndex rates sideBars i ↔
        (∀ j, 1 ≤ j → j ≤ sideBars →
          (rates.getD i default).low < (rates.getD (i - j) default).low) ∧
        (∀ j, 1 ≤ j → j ≤ sideBars →
          (rates.getD i default).low ≤ (rates.getD (i + j) default).low))) ∧
    IsPeakIndex rates5 2 2 ∧ ¬ IsPeakIndex rates5 2 3 := by
  refine ⟨fun rates sideBars i hlen hlo hhi => ⟨?_, ?_⟩, by decide, by decide⟩
  · rw [isPeakIndex_iff hlen, mem_fractalCandidates hlen, isPeakAt_iff]
    constructor
    · rintro ⟨-, h⟩; exact h
    · intro h; exact ⟨⟨hlo, hhi⟩, h⟩
  · rw [isBottomIndex_iff hlen, mem_fractalCandidates hlen, isBottomAt_iff]
    constructor
    · rintro ⟨-, h⟩; exact h
    · intro h; exact ⟨⟨hlo, hhi⟩, h⟩

/-- Witness for C1: the classification rule instantiated on the concrete
5-bar spec series at index 2 with `sideBars = 2`. -/
theorem fractal_classification_rule_witness :
    IsPeakIndex rates5 2 2 ↔
      (∀ j, 1 ≤ j → j ≤ 2 →
        (rates5.getD (2 - j) default).high < (rates5.getD 2 default).high) ∧
      (∀ j, 1 ≤ j → j ≤ 2 →
        (rates5.getD (2 + j) default).high ≤ (rates5.getD 2 default).high) :=
  (fractal_classification_rule.1 rates5 2 2 (by decide) (by decide) (by decide)).1

/-- C2.  A series with fewer than `2*sideBars+1` bars yields the empty
fractal structure; the computation is total by construction (no exception
path is reachable). -/
theorem fractal_insufficient_data (rates : List Bar) (sideBars : ℕ)
    (h : rates.length < 2 * sideBars + 1) :
    calculateFractals rates sideBars = ⟨[], []⟩ := by
  unfold calculateFractals
  rw [if_pos h]

/-- Witness for C2: a 4-bar series is too short for `sideBars = 2` and
returns no peaks and no bottoms. -/
theorem fractal_insufficient_data_witness :
    (rates5.take 4).length < 2 * 2 + 1 ∧
      calculateFractals (rates5.take 4) 2 = ⟨[], []⟩ :=
  ⟨by decide, fractal_insufficient_data (rates5.take 4) 2 (by decide)⟩

/-- The wide-range-bar series refuting C9: highs `[50,100,50]`,
lows `[50,0,50]`.  With `sideBars = 1`, bar 1 is simultaneously a strict
high extremum and a strict low extremum. -/
def ratesWide : List Bar :=
  [⟨0, 50, 50⟩, ⟨1, 100, 0⟩, ⟨2, 50, 50⟩]

/-- Counterexample to C9 as stated: on `ratesWide` with `sideBars = 1`,
index 1 is classified both as a Peak and as a Bottom (the high and low
comparisons are independent, so a bar with a wide enough range can win
both). -/
theorem fractal_peak_and_bottom_counterexample :
    IsPeakIndex ratesWide 1 1 ∧ IsBottomIndex ratesWide 1 1 := by
  decide

/-- C9 amended.  On any series in which every bar has `high = low`
(degenerate zero-range bars, the only case where the two comparisons are
linked) and `sideBars ≥ 1`, no index is classified as both a Peak and a
Bottom; in general an index may be both. -/
theorem fractal_never_both_amended (rates : List Bar) (sideBars : ℕ)
    (hflat : ∀ b ∈ rates, b.high = b.low) (hsb : 1 ≤ sideBars) :
    ∀ i, ¬ (IsPeakIndex rates sideBars i ∧ IsBottomIndex rates sideBars i) := by
  intro i ⟨hpk, hbt⟩
  by_cases hlen : 2 * sideBars + 1 ≤ rates.length
  · obtain ⟨hcand, hpk'⟩ := (isPeakIndex_iff hlen).mp hpk
    obtain ⟨-, hbt'⟩ := (isBottomIndex_iff hlen).mp hbt
    obtain ⟨hlo, hhi⟩ := (mem_fractalCandidates hlen).mp hcand
    have hi : i < rates.length := by omega
    have hi1 : i - 1 < rates.length := by omega
    have h1 := ((isPeakAt_iff rates sideBars i).mp hpk').1 1 le_rfl hsb
    have h2 := ((isBottomAt_iff rates sideBars i).mp hbt').1 1 le_rfl hsb
    rw [rates.getD_eq_getElem default hi, rates.getD_eq_getElem default hi1] at h1 h2
    rw [hflat _ (rates.getElem_mem hi1), hflat _ (rates.getElem_mem hi)] at h1
    exact absurd (h1.trans h2) (lt_irrefl _)
  · have hempty : calculateFractals rates sideBars = ⟨[], []⟩ := by
      unfold calculateFractals; rw [if_pos (by omega)]
    obtain ⟨p, hp, -⟩ := hpk
    rw [hempty] at hp
    exact absurd hp (List.not_mem_nil p)

/-- A flat 3-bar series (`high = low = 5` everywhere). -/
def ratesFlat : List Bar :=
  [⟨0, 5, 5⟩, ⟨1, 5, 5⟩, ⟨2, 5, 5⟩]

/-- Witness for the amended C9: on the flat series with `sideBars = 1`,
index 1 is not classified as both a Peak and a Bottom. -/
theorem fractal_never_both_amended_witness :
    (∀ b ∈ ratesFlat, b.high = b.low) ∧
      ¬ (IsPeakIndex ratesFlat 1 1 ∧ IsBottomIndex ratesFlat 1 1) :=
  ⟨by decide, fractal_never_both_amended ratesFlat 1 (by decide) (by decide) 1⟩

/-! ## Horizontal clustering (`_find_horizontal_clusters`) -/

/-- One cluster as assembled inside `_find_horizontal_clusters`: the
touch indices (`touch_indices`, positions in the time-descending sorted
point list, anchor first), the touching points themselves (`touches`),
the averaged price level, the earliest touch time (`start_time`) and the
score `len(touches)*25 + max(0, 100 - age_hours)`. -/
structure HCluster where
  touchIdxs : List ℕ
  touches : List FractalPoint
  priceLevel : ℚ
  startTime : ℤ
  score : ℚ
  deriving Repr, DecidableEq

/-- The inner match loop of `_find_horizontal_clusters`: the indices `j`
of `sorted_points` with `j != i`, `j` not yet used, and
`abs(point.value - anchor_price) <= anchor_price * tolerance_percent/100`,
collected in increasing `j` order exactly as the Python `for j, point in
enumerate(sorted_points)` loop does. -/
def hzMatches (sorted : List FractalPoint) (tolPct : ℚ) (used : List ℕ) (i : ℕ) : List ℕ :=
  (List.range sorted.length).filter fun j =>
    decide (j ≠ i ∧ j ∉ used ∧
      rabs ((sorted.getD j default).value - (sorted.getD i default).value) ≤
        (sorted.getD i default).value * (tolPct / 100))

/-- Builds the cluster record for anchor index `i` and its touch index
list `tIdxs` (anchor first), mirroring the body of the
`if len(touches) >= min_touches` branch. -/
def mkHCluster (sorted : List FractalPoint) (endTime : ℤ) (tIdxs : List ℕ) : HCluster :=
  let touches := tIdxs.map fun k => sorted.getD k default
  let avg := (touches.map (·.value)).sum / (touches.length : ℚ)
  let anchorTime := (sorted.getD (tIdxs.getD 0 0) default).time
  let st := (touches.map (·.time)).foldl min anchorTime
  let mx := (touches.map (·.time)).foldl max anchorTime
  let ageHours : ℚ := if mx < endTime then ((endTime - mx : ℤ) : ℚ) / 3600 else 0
  ⟨tIdxs, touches, avg, st, (touches.length : ℚ) * 25 + max 0 (100 - ageHours)⟩

/-- The anchor scan of `_find_horizontal_clusters`: iterate the anchor
index list (initially `range(len(sorted_points))`), skipping used
indices; for a fresh anchor collect its matches, and when at least
`min_touches` points touch, emit the cluster and mark all its indices
used. -/
def hzGo (sorted : List FractalPoint) (tolPct : ℚ) (minT : ℕ) (endTime : ℤ) :
    List ℕ → List ℕ → List HCluster
  | [], _ => []
  | i :: rest, used =>
    if i ∈ used then hzGo sorted tolPct minT endTime rest used
    else if minT ≤ (i :: hzMatches sorted tolPct used i).length then
      mkHCluster sorted endTime (i :: hzMatches sorted tolPct used i) ::
        hzGo sorted tolPct minT endTime rest (used ++ i :: hzMatches sorted tolPct used i)
    else hzGo sorted tolPct minT endTime rest used

/-- `_find_horizontal_clusters(points, tolerance_percent, min_touches,
end_time)`: fewer points than `min_touches` yields no clusters; otherwise
the points are sorted by time descending (stable, as Python's `sorted`
with `reverse=True`), scanned for clusters, and the clusters are returned
sorted by descending score (stable). -/
def sortByTimeDesc (points : List FractalPoint) : List FractalPoint :=
  points.insertionSort fun a b => b.time ≤ a.time

def findHorizontalClusters (points : List FractalPoint) (tolPct : ℚ) (minT : ℕ)
    (endTime : ℤ) : List HCluster :=
  if points.length < minT then []
  else
    (hzGo (sortByTimeDesc points) tolPct minT endTime
        (List.range (sortByTimeDesc points).length) []).insertionSort
      fun a b => b.score ≤ a.score

/-- Two clusters are index-disjoint: no sorted-point position belongs to
both. -/
def HDisjoint (c d : HCluster) : Prop :=
  ∀ k ∈ c.touchIdxs, k ∉ d.touchIdxs

section HorizontalLemmas

lemma mkHCluster_touchIdxs (sorted : List FractalPoint) (endTime : ℤ) (tIdxs : List ℕ) :
    (mkHCluster sorted endTime tIdxs).touchIdxs = tIdxs := rfl

lemma mkHCluster_touches (sorted : List FractalPoint) (endTime : ℤ) (tIdxs : List ℕ) :
    (mkHCluster sorted endTime tIdxs).touches = tIdxs.map fun k => sorted.getD k default := rfl

lemma mem_hzMatches {sorted : List FractalPoint} {tolPct : ℚ} {used : List ℕ} {i j : ℕ}
    (h : j ∈ hzMatches sorted tolPct used i) :
    j ≠ i ∧ j ∉ used ∧
      rabs ((sorted.getD j default).value - (sorted.getD i default).value) ≤
        (sorted.getD i default).value * (tolPct / 100) :=
  of_decide_eq_true (List.mem_filter.mp h).2

lemma hzGo_fresh (sorted : List FractalPoint) (tolPct : ℚ) (minT : ℕ) (endTime : ℤ) :
    ∀ (idxs used : List ℕ), ∀ c ∈ hzGo sorted tolPct minT endTime idxs used,
      ∀ k ∈ c.touchIdxs, k ∉ used := by
  intro idxs
  induction idxs with
  | nil => intro used c hc; simp [hzGo] at hc
  | cons i rest IH =>
    intro used c hc k hk
    rw [hzGo] at hc
    by_cases hi : i ∈ used
    · rw [if_pos hi] at hc
      exact IH used c hc k hk
    · rw [if_neg hi] at hc
      by_cases hguard : minT ≤ (i :: hzMatches sorted tolPct used i).length
      · rw [if_pos hguard] at hc
        rcases List.mem_cons.mp hc with rfl | hc'
        · rw [mkHCluster_touchIdxs] at hk
          rcases List.mem_cons.mp hk with rfl | hk'
          · exact hi
          · exact (mem_hzMatches hk').2.1
        · intro hku
          exact IH _ c hc' k hk (List.mem_append_left _ hku)
      · rw [if_neg hguard] at hc
        exact IH used c hc k hk

lemma hzGo_pairwise (sorted : List FractalPoint) (tolPct : ℚ) (minT : ℕ) (endTime : ℤ) :
    ∀ (idxs used : List ℕ),
      (hzGo sorted tolPct minT endTime idxs used).Pairwise HDisjoint := by
  intro idxs
  induction idxs with
  | nil => intro used; simp [hzGo]
  | cons i rest IH =>
    intro used
    rw [hzGo]
    by_cases hi : i ∈ used
    · rw [if_pos hi]; exact IH used
    · rw [if_neg hi]
      by_cases hguard : minT ≤ (i :: hzMatches sorted tolPct used i).length
      · rw [if_pos hguard]
        refine List.Pairwise.cons (fun d hd k hk hkd => ?_) (IH _)
        have hfresh := hzGo_fresh sorted tolPct minT endTime rest
          (used ++ i :: hzMatches sorted tolPct used i) d hd k hkd
        rw [mkHCluster_touchIdxs] at hk
        exact hfresh (List.mem_append_right _ hk)
      · rw [if_neg hguard]; exact IH used

lemma hzGo_size (sorted : List FractalPoint) (tolPct : ℚ) (minT : ℕ) (endTime : ℤ) :
    ∀ (idxs used : List ℕ), ∀ c ∈ hzGo sorted tolPct minT endTime idxs used,
      minT ≤ c.touches.length := by
  intro idxs
  induction idxs with
  | nil => intro used c hc; simp [hzGo] at hc
  | cons i rest IH =>
    intro used c hc
    rw [hzGo] at hc
    by_cases hi : i ∈ used
    · rw [if_pos hi] at hc; exact IH used c hc
    · rw [if_neg hi] at hc
      by_cases hguard : minT ≤ (i :: hzMatches sorted tolPct used i).length
      · rw [if_pos hguard] at hc
        rcases List.mem_cons.mp hc with rfl | hc'
        · rw [mkHCluster_touches, List.length_map]
          exact hguard
        · exact IH _ c hc'
      · rw [if_neg hguard] at hc; exact IH used c hc

lemma hzGo_anchor_tol (sorted : List FractalPoint) (tolPct : ℚ) (minT : ℕ) (endTime : ℤ)
    (htol : 0 ≤ tolPct) (hval : ∀ p ∈ sorted, 0 ≤ p.value) :
    ∀ (idxs used : List ℕ), (∀ i ∈ idxs, i < sorted.length) →
      ∀ c ∈ hzGo sorted tolPct minT endTime idxs used, ∀ p ∈ c.touches,
        rabs (p.value - (c.touches.getD 0 default).value) ≤
          (c.touches.getD 0 default).value * (tolPct / 100) := by
  intro idxs
  induction idxs with
  | nil => intro used _ c hc; simp [hzGo] at hc
  | cons i rest IH =>
    intro used hlt c hc p hp
    rw [hzGo] at hc
    by_cases hi : i ∈ used
    · rw [if_pos hi] at hc
      exact IH used (fun j hj => hlt j (List.mem_cons_of_mem i hj)) c hc p hp
    · rw [if_neg hi] at hc
      by_cases hguard : minT ≤ (i :: hzMatches sorted tolPct used i).length
      · rw [if_pos hguard] at hc
        rcases List.mem_cons.mp hc with rfl | hc'
        · rw [mkHCluster_touches] at hp ⊢
          have hhead : ((i :: hzMatches sorted tolPct used i).map
              fun k => sorted.getD k default).getD 0 default = sorted.getD i default := rfl
          rw [hhead]
          rcases List.mem_map.mp hp with ⟨k, hk, rfl⟩
          rcases List.mem_cons.mp hk with rfl | hk'
          · have h0 : 0 ≤ (sorted.getD k default).value := by
              have hkl : k < sorted.length := hlt k (List.mem_cons_self k rest)
              rw [sorted.getD_eq_getElem default hkl]
              exact hval _ (sorted.getElem_mem hkl)
            rw [sub_self, rabs_eq_abs, abs_zero]
            positivity
          · exact (mem_hzMatches hk').2.2
        · exact IH _ (fun j hj => hlt j (List.mem_cons_of_mem i hj)) c hc' p hp
      · rw [if_neg hguard] at hc
        exact IH used (fun j hj => hlt j (List.mem_cons_of_mem i hj)) c hc p hp

lemma hDisjoint_symm : ∀ {c d : HCluster}, HDisjoint c d → HDisjoint d c := by
  intro c d h k hkd hkc
  exact h k hkc hkd

end HorizontalLemmas

lemma mem_sortByTimeDesc {points : List FractalPoint} {p : FractalPoint} :
    p ∈ sortByTimeDesc points ↔ p ∈ points := by
  unfold sortByTimeDesc
  exact List.mem_insertionSort _

/-- The input refuting the priceLevel-relative tolerance of C3: the most
recent point (the anchor) sits at price 100 and 67 older points sit at
98.5, exactly on the 1.5% tolerance edge relative to the anchor.  All 68
points form one cluster whose average price is 13399/136 ≈ 98.52, and the
anchor then deviates from that average by slightly more than 1.5% of it. -/
def pts68 : List FractalPoint :=
  ⟨1000, 100, 0⟩ :: ((List.range 67).map fun k => ⟨(k : ℤ), 197 / 2, 0⟩)

/-- Counterexample to C3 as stated: with the default
`tolerance_percent = 1.5` and `min_touches = 2`, some returned cluster has
a member (the anchor itself) whose price is NOT within 1.5% of the
cluster's computed `priceLevel` (the arithmetic mean).  The code clusters
by distance from the anchor's price, not from the mean. -/
theorem horizontal_cluster_tolerance_counterexample :
    ∃ c ∈ findHorizontalClusters pts68 (3 / 2) 2 2000, ∃ m ∈ c.touches,
      ¬ (rabs (m.value - c.priceLevel) ≤ c.priceLevel * (3 / 2 / 100)) := by
  set_option maxRecDepth 100000 in with_unfolding_all decide

/-- C3 amended.  For nonnegative prices and tolerance, the clusters
returned by `_find_horizontal_clusters` are pairwise index-disjoint (no
point position is a member of two clusters), every cluster has at least
`min_touches` members, and every member's price lies within
`tolerance_percent%` of the cluster's ANCHOR price (the price of its
most-recent member, `touches[0]`) — not of the mean `priceLevel`, for
which the bound can fail. -/
theorem horizontal_cluster_invariants_amended (points : List FractalPoint) (tolPct : ℚ)
    (minT : ℕ) (endTime : ℤ) (htol : 0 ≤ tolPct) (hval : ∀ p ∈ points, 0 ≤ p.value) :
    (findHorizontalClusters points tolPct minT endTime).Pairwise HDisjoint ∧
    (∀ c ∈ findHorizontalClusters points tolPct minT endTime, minT ≤ c.touches.length) ∧
    (∀ c ∈ findHorizontalClusters points tolPct minT endTime, ∀ p ∈ c.touches,
      rabs (p.value - (c.touches.getD 0 default).value) ≤
        (c.touches.getD 0 default).value * (tolPct / 100)) := by
  unfold findHorizontalClusters
  by_cases hshort : points.length < minT
  · rw [if_pos hshort]
    exact ⟨List.Pairwise.nil, by simp, by simp⟩
  · rw [if_neg hshort]
    refine ⟨?_, ?_, ?_⟩
    · exact ((List.perm_insertionSort _ _).pairwise_iff hDisjoint_symm).mpr
        (hzGo_pairwise _ _ _ _ _ _)
    · intro c hc
      exact hzGo_size _ _ _ _ _ _ c ((List.mem_insertionSort _).mp hc)
    · intro c hc p hp
      refine hzGo_anchor_tol (sortByTimeDesc points) tolPct minT endTime htol
        (fun q hq => hval q (mem_sortByTimeDesc.mp hq)) _ []
        (fun i hi => List.mem_range.mp hi) c ((List.mem_insertionSort _).mp hc) p hp

/-- A small two-point input: both points cluster (101 is within 1.5% of
the anchor price 100). -/
def ptsPair : List FractalPoint :=
  [⟨10, 100, 0⟩, ⟨5, 101, 1⟩]

/-- Witness for the amended C3, instantiated on `ptsPair` with the default
parameters. -/
theorem horizontal_cluster_invariants_amended_witness :
    (0 : ℚ) ≤ 3 / 2 ∧
    ((findHorizontalClusters ptsPair (3 / 2) 2 20).Pairwise HDisjoint ∧
    (∀ c ∈ findHorizontalClusters ptsPair (3 / 2) 2 20, 2 ≤ c.touches.length) ∧
    (∀ c ∈ findHorizontalClusters ptsPair (3 / 2) 2 20, ∀ p ∈ c.touches,
      rabs (p.value - (c.touches.getD 0 default).value) ≤
        (c.touches.getD 0 default).value * (3 / 2 / 100))) :=
  ⟨by norm_num,
    horizontal_cluster_invariants_amended ptsPair (3 / 2) 2 20 (by norm_num) (by decide)⟩

/-! ## Diagonal trend lines (`_calculate_diagonal_lines`) -/

/-- A fractal point tagged with its kind, as built by
`all_fractals.append({**p, 'is_peak': ...})`. -/
structure TaggedPoint where
  time : ℤ
  value : ℚ
  isPeak : Bool
  deriving Repr, DecidableEq

instance : Inhabited TaggedPoint := ⟨⟨0, 0, false⟩⟩

/-- `normalized_slope = (price_diff / avg_price) / (time_diff / 3600)`. -/
def normalizedSlope (p1 p2 : TaggedPoint) : ℚ :=
  ((p2.value - p1.value) / ((p1.value + p2.value) / 2)) /
    (((p2.time - p1.time : ℤ) : ℚ) / 3600)

/-- `angle_deg = abs(degrees(atan(normalized_slope * 10)))`, over the
reals (the code computes in floating point; the claims about this value
are order/algebraic and are interpreted over ℝ). -/
noncomputable def angleDeg (p1 p2 : TaggedPoint) : ℝ :=
  |Real.arctan ((normalizedSlope p1 p2 : ℝ) * 10) * 180 / Real.pi|

/-- One candidate line as assembled in `line_data`: the defining pair,
the score, the touch count, the angle, the slope, and its direction
(`price_diff > 0` = ascending). -/
structure DiagLine where
  p1 : TaggedPoint
  p2 : TaggedPoint
  score : ℚ
  touches : ℕ
  angle : ℝ
  slope : ℚ
  asc : Bool

/-- The touch-counting loop: indices `k` of the candidate window whose
point deviates from the line `y = slope*t + y_intercept` by at most
`tolerance_percent%` of the point's own price. -/
def touchIdxList (recent : List TaggedPoint) (tolPct slope yInt : ℚ) : List ℕ :=
  (List.range recent.length).filter fun k =>
    decide (rabs ((recent.getD k default).value -
        (slope * ((recent.getD k default).time : ℚ) + yInt)) ≤
      (recent.getD k default).value * (tolPct / 100))

/-- `slope = price_diff / time_diff`. -/
def diagSlope (p1 p2 : TaggedPoint) : ℚ :=
  (p2.value - p1.value) / ((p2.time - p1.time : ℤ) : ℚ)

/-- `y_intercept = p1.value - slope * p1.time`. -/
def diagYInt (p1 p2 : TaggedPoint) : ℚ :=
  p1.value - diagSlope p1 p2 * (p1.time : ℚ)

/-- The touch indices of the line through `p1`, `p2` in the candidate
window. -/
def diagTouches (recent : List TaggedPoint) (tolPct : ℚ) (p1 p2 : TaggedPoint) : List ℕ :=
  touchIdxList recent tolPct (diagSlope p1 p2) (diagYInt p1 p2)

/-- `total_score = touches*25 + min(length_hours, 100)*0.1 +
(50 if j >= len(recent)-5 else 0)`. -/
def diagScore (recent : List TaggedPoint) (tolPct : ℚ) (p1 p2 : TaggedPoint) (j : ℕ) : ℚ :=
  ((diagTouches recent tolPct p1 p2).length : ℚ) * 25 +
    min (((p2.time - p1.time : ℤ) : ℚ) / 3600) 100 * (1 / 10) +
    (if recent.length - 5 ≤ j then 50 else 0)

open Classical in
/-- The body of the pair loop of `_calculate_diagonal_lines` for the pair
of window positions `ij`: `None` encodes `continue` (non-positive time
difference, angle outside `[min_angle, max_angle]`, or fewer than
`min_touches` touches); otherwise the assembled `line_data`. -/
noncomputable def mkDiagLine (recent : List TaggedPoint) (tolPct : ℚ)
    (minAngle maxAngle : ℝ) (minT : ℕ) (ij : ℕ × ℕ) : Option DiagLine :=
  if (recent.getD ij.2 default).time - (recent.getD ij.1 default).time ≤ 0 then none
  else if angleDeg (recent.getD ij.1 default) (recent.getD ij.2 default) < minAngle ∨
      maxAngle < angleDeg (recent.getD ij.1 default) (recent.getD ij.2 default) then none
  else if (diagTouches recent tolPct (recent.getD ij.1 default)
      (recent.getD ij.2 default)).length < minT then none
  else
    some ⟨recent.getD ij.1 default, recent.getD ij.2 default,
      diagScore recent tolPct (recent.getD ij.1 default) (recent.getD ij.2 default) ij.2,
      (diagTouches recent tolPct (recent.getD ij.1 default) (recent.getD ij.2 default)).length,
      angleDeg (recent.getD ij.1 default) (recent.getD ij.2 default),
      diagSlope (recent.getD ij.1 default) (recent.getD ij.2 default),
      decide (0 < (recent.getD ij.2 default).value - (recent.getD ij.1 default).value)⟩

/-- The ordered index pairs `(i, j)` with `i < j < n` visited by the
nested `for i ... for j in range(i+1, ...)` loops, in loop order. -/
def diagPairs (n : ℕ) : List (ℕ × ℕ) :=
  (List.range n).flatMap fun i => (List.range' (i + 1) (n - (i + 1))).map fun j => (i, j)

/-- `recent_fractals = all_fractals[-50:]` (the last 50 of the
time-sorted merged list, or all of them when there are at most 50). -/
def recentFractals (sorted : List TaggedPoint) : List TaggedPoint :=
  if 50 < sorted.length then sorted.drop (sorted.length - 50) else sorted

open Classical in
/-- All candidate lines produced by the pair loop of
`_calculate_diagonal_lines` (in loop order); `[]` when fewer than two
fractals exist (the early `return result`). -/
noncomputable def diagCandidates (points : List TaggedPoint) (tolPct : ℚ)
    (minAngle maxAngle : ℝ) (minT : ℕ) : List DiagLine :=
  if points.length < 2 then []
  else
    (diagPairs (recentFractals (points.insertionSort fun a b => a.time ≤ b.time)).length).filterMap
      (mkDiagLine (recentFractals (points.insertionSort fun a b => a.time ≤ b.time))
        tolPct minAngle maxAngle minT)

open Classical in
/-- The final selection of `_calculate_diagonal_lines`: ascending and
descending candidates are separated (in loop order, as the Python code
appends to the two lists), each sorted by descending score (stable) and
truncated to the top 3. -/
noncomputable def diagTop (points : List TaggedPoint) (tolPct : ℚ)
    (minAngle maxAngle : ℝ) (minT : ℕ) : List DiagLine × List DiagLine :=
  ((((diagCandidates points tolPct minAngle maxAngle minT).filter (·.asc)).insertionSort
      fun a b => b.score ≤ a.score).take 3,
   (((diagCandidates points tolPct minAngle maxAngle minT).filter fun l =>
      !l.asc).insertionSort fun a b => b.score ≤ a.score).take 3)

/-- Merging peaks and bottoms with their kind tags, as in the
`all_fractals` construction. -/
def tagPoints (fr : Fractals) : List TaggedPoint :=
  (fr.peaks.map fun p => ⟨p.time, p.value, true⟩) ++
    (fr.bottoms.map fun b => ⟨b.time, b.value, false⟩)

/-- The full pipeline of C5: `_calculate_fractals` with the default
`side_bars = 35` followed by `_calculate_diagonal_lines` with its default
parameters (`tolerance_percent = 1.5`, `min_angle = 0.5`,
`max_angle = 60`, `min_touches = 2`). -/
noncomputable def endToEnd (rates : List Bar) : List DiagLine × List DiagLine :=
  diagTop (tagPoints (calculateFractals rates 35)) (3 / 2) (1 / 2 : ℝ) 60 2

section DiagonalLemmas

lemma normalizedSlope_symm (p1 p2 : TaggedPoint) :
    normalizedSlope p2 p1 = normalizedSlope p1 p2 := by
  unfold normalizedSlope
  rw [show ((p1.time - p2.time : ℤ) : ℚ) = -((p2.time - p1.time : ℤ) : ℚ) by push_cast; ring,
    show p1.value - p2.value = -(p2.value - p1.value) by ring,
    show p2.value + p1.value = p1.value + p2.value from add_comm _ _]
  simp only [neg_div, div_neg, neg_neg]

lemma angleDeg_symm (p1 p2 : TaggedPoint) : angleDeg p1 p2 = angleDeg p2 p1 := by
  unfold angleDeg
  rw [normalizedSlope_symm]

lemma mkDiagLine_angle {recent : List TaggedPoint} {tolPct : ℚ} {minAngle maxAngle : ℝ}
    {minT : ℕ} {ij : ℕ × ℕ} {l : DiagLine}
    (h : mkDiagLine recent tolPct minAngle maxAngle minT ij = some l) :
    (minAngle ≤ l.angle ∧ l.angle ≤ maxAngle) ∧ l.angle = angleDeg l.p1 l.p2 := by
  unfold mkDiagLine at h
  split at h
  · exact absurd h (by simp)
  · split at h
    · exact absurd h (by simp)
    · split at h
      · exact absurd h (by simp)
      · injection h with h
        subst h
        refine ⟨?_, rfl⟩
        constructor
        · by_contra hlt
          exact (by assumption : ¬ (_ ∨ _)) (Or.inl (lt_of_not_le hlt))
        · by_contra hgt
          exact (by assumption : ¬ (_ ∨ _)) (Or.inr (lt_of_not_le hgt))

lemma mem_diagCandidates_angle {points : List TaggedPoint} {tolPct : ℚ}
    {minAngle maxAngle : ℝ} {minT : ℕ} {l : DiagLine}
    (h : l ∈ diagCandidates points tolPct minAngle maxAngle minT) :
    (minAngle ≤ l.angle ∧ l.angle ≤ maxAngle) ∧ l.angle = angleDeg l.p1 l.p2 := by
  unfold diagCandidates at h
  split at h
  · exact absurd h (List.not_mem_nil l)
  · rcases List.mem_filterMap.mp h with ⟨ij, -, hij⟩
    exact mkDiagLine_angle hij

end DiagonalLemmas

/-- C4.  (i) Every diagonal line kept by the synthesizer carries
`angleDegrees = |degrees(atan(normalizedSlope * 10))|` of its defining
pair, and that value lies within `[minAngleDegrees, maxAngleDegrees]`;
(ii) the angle computation is symmetric in the pair, so (iii) reversing
a pair does not change whether the angle filter accepts it. -/
theorem diagonal_angle_bound_and_symmetry :
    (∀ (points : List TaggedPoint) (tolPct : ℚ) (minAngle maxAngle : ℝ) (minT : ℕ),
      ((diagTop points tolPct minAngle maxAngle minT).1 ++
        (diagTop points tolPct minAngle maxAngle minT).2).Forall fun l =>
          (minAngle ≤ l.angle ∧ l.angle ≤ maxAngle) ∧ l.angle = angleDeg l.p1 l.p2) ∧
    (∀ p1 p2, angleDeg p1 p2 = angleDeg p2 p1) ∧
    (∀ (p1 p2 : TaggedPoint) (minAngle maxAngle : ℝ),
      (minAngle ≤ angleDeg p1 p2 ∧ angleDeg p1 p2 ≤ maxAngle) ↔
        (minAngle ≤ angleDeg p2 p1 ∧ angleDeg p2 p1 ≤ maxAngle)) := by
  refine ⟨fun points tolPct minAngle maxAngle minT => ?_,
    fun p1 p2 => angleDeg_symm p1 p2,
    fun p1 p2 minAngle maxAngle => by rw [angleDeg_symm]⟩
  rw [List.forall_iff_forall_mem]
  intro l hl
  rcases List.mem_append.mp hl with hl' | hl' <;>
    exact mem_diagCandidates_angle
      ((List.mem_filter.mp ((List.mem_insertionSort _).mp (List.take_subset 3 _ hl'))).1)

/-- A monotonic uptrend: both highs and lows strictly increase from each
bar to the next. -/
def StrictUptrend (rates : List Bar) : Prop :=
  ∀ i < rates.length - 1,
    (rates.getD i default).high < (rates.getD (i + 1) default).high ∧
    (rates.getD i default).low < (rates.getD (i + 1) default).low

/-- Bar `i` of the concrete 200-bar uptrend: strictly increasing integer
prices, one time unit apart. -/
def mkUpBar (i : ℕ) : Bar :=
  ⟨(i : ℤ), (i : ℚ) + 1, (i : ℚ)⟩

/-- A concrete 200-bar monotonic uptrend series. -/
def bars200 : List Bar :=
  (List.range 200).map mkUpBar

section UptrendLemmas

lemma bars200_length : bars200.length = 200 := by
  simp [bars200]

lemma bars200_getD {i : ℕ} (h : i < 200) : bars200.getD i default = mkUpBar i := by
  unfold bars200
  rw [List.getD_eq_getElem _ _ (by simpa using h)]
  simp

lemma bars200_strictUp : StrictUptrend bars200 := by
  intro i hi
  rw [bars200_length] at hi
  rw [bars200_getD (by omega), bars200_getD (by omega)]
  unfold mkUpBar
  constructor
  · show ((i : ℚ) + 1 : ℚ) < ((i + 1 : ℕ) : ℚ) + 1
    push_cast
    linarith
  · show ((i : ℚ) : ℚ) < ((i + 1 : ℕ) : ℚ)
    push_cast
    linarith

lemma calculateFractals_strictUp (rates : List Bar) (sideBars : ℕ)
    (hup : StrictUptrend rates) (hsb : 1 ≤ sideBars) :
    calculateFractals rates sideBars = ⟨[], []⟩ := by
  unfold calculateFractals
  by_cases hlen : rates.length < 2 * sideBars + 1
  · rw [if_pos hlen]
  · rw [if_neg hlen]
    have hbounds : ∀ i ∈ fractalCandidates rates sideBars,
        sideBars ≤ i ∧ i + sideBars < rates.length := fun i hi =>
      (mem_fractalCandidates (by omega)).mp hi
    have hpk : ∀ i ∈ fractalCandidates rates sideBars,
        ¬ isPeakAt rates sideBars i = true := by
      intro i hi hpeak
      obtain ⟨hlo, hhi⟩ := hbounds i hi
      have hstep := (hup i (by omega)).1
      have := ((isPeakAt_iff rates sideBars i).mp hpeak).2 1 le_rfl hsb
      exact absurd (lt_of_le_of_lt this hstep) (lt_irrefl _)
    have hbt : ∀ i ∈ fractalCandidates rates sideBars,
        ¬ isBottomAt rates sideBars i = true := by
      intro i hi hbot
      obtain ⟨hlo, hhi⟩ := hbounds i hi
      have hstep := (hup (i - 1) (by omega)).2
      rw [show i - 1 + 1 = i by omega] at hstep
      have := ((isBottomAt_iff rates sideBars i).mp hbot).1 1 le_rfl hsb
      exact absurd (hstep.trans this) (lt_irrefl _)
    have h1 : (fractalCandidates rates sideBars).filterMap (fun i =>
        if isPeakAt rates sideBars i then
          some (⟨(rates.getD i default).time, (rates.getD i default).high, i⟩ : FractalPoint)
        else none) = [] :=
      List.filterMap_eq_nil_iff.mpr fun i hi => by rw [if_neg (hpk i hi)]
    have h2 : (fractalCandidates rates sideBars).filterMap (fun i =>
        if isBottomAt rates sideBars i then
          some (⟨(rates.getD i default).time, (rates.getD i default).low, i⟩ : FractalPoint)
        else none) = [] :=
      List.filterMap_eq_nil_iff.mpr fun i hi => by rw [if_neg (hbt i hi)]
    rw [h1, h2]

end UptrendLemmas

/-- Counterexample to C5 as stated: `bars200` is a 200-bar monotonic
uptrend series, yet the pipeline (fractals with default `side_bars = 35`,
then diagonal synthesis) yields NO ascending diagonal line at all — a
strictly monotonic series has no fractal points (every peak needs
`high[i] >= high[i+1]` and every bottom needs `low[i] < low[i-1]`), so
the diagonal pass has nothing to pair. -/
theorem uptrend_no_ascending_counterexample :
    StrictUptrend bars200 ∧ bars200.length = 200 ∧ (endToEnd bars200).1 = [] := by
  refine ⟨bars200_strictUp, bars200_length, ?_⟩
  unfold endToEnd
  rw [calculateFractals_strictUp bars200 35 bars200_strictUp (by omega)]
  simp [tagPoints, diagTop, diagCandidates]

/-- C5 amended.  Every 200-bar monotonic uptrend series produces zero
Ascending and zero Descending diagonal lines: strict monotonicity leaves
the fractal detector with no peaks and no bottoms, so the diagonal
synthesizer returns the empty result. -/
theorem uptrend_end_to_end_amended (rates : List Bar)
    (hup : StrictUptrend rates) (_hlen : rates.length = 200) :
    endToEnd rates = ([], []) := by
  unfold endToEnd
  rw [calculateFractals_strictUp rates 35 hup (by omega)]
  simp [tagPoints, diagTop, diagCandidates]

/-- Witness for the amended C5 at the concrete uptrend `bars200`. -/
theorem uptrend_end_to_end_amended_witness :
    StrictUptrend bars200 ∧ bars200.length = 200 ∧ endToEnd bars200 = ([], []) :=
  ⟨bars200_strictUp, bars200_length,
    uptrend_end_to_end_amended bars200 bars200_strictUp bars200_length⟩

/-! ## Connection pool (`mt5_connection_pool.py`)

Effectful methods are embedded as pure state transformers over the
connection record, parameterized by an outcome oracle describing what the
external MT5 terminal did during the call (module unavailable,
`initialize()` returning false, `login()` failing, success, or an
exception being raised).  The registry is embedded as the list of owned
connections: per the data-model invariant, the id-keyed and symbol-keyed
dicts are two views over this one set. -/

/-- The mutable state of one `MT5Connection` (`__init__`, lines 38-48):
`connected`, `last_check`, `error_message`, `last_error`,
`reconnect_count`, plus the identifying `id`/`symbol` (credentials and
the lock are not modeled).  `last_check` timestamps are abstract numbers
supplied by the caller as `now`. -/
structure MT5Connection where
  id : String
  symbol : String
  connected : Bool
  lastCheck : Option ℕ
  errorMessage : Option String
  lastError : Option String
  reconnectCount : ℕ
  deriving Repr, DecidableEq

instance : Inhabited MT5Connection := ⟨⟨"", "", false, none, none, none, 0⟩⟩

/-- What the external terminal did during a `connect()` attempt.  An
exception can be raised either by `mt5.initialize()` itself (the handle
stays closed) or after `initialize()` has succeeded (by `mt5.login` or
`mt5.last_error`); `afterInit` records which, because the `except`
branch performs no `mt5.shutdown()` and so the handle state at the point
of the raise is what `connect()` leaves behind. -/
inductive ConnectOutcome where
  | unavailable
  | initFail
  | loginFail (err : String)
  | success
  | exc (msg : String) (afterInit : Bool)
  deriving Repr, DecidableEq

/-- What the terminal did during a `disconnect()` call: module missing,
normal shutdown, or `mt5.shutdown()` raising (in which case the
`connected` flag is never cleared — the `except` only logs). -/
inductive DiscOutcome where
  | unavailable
  | ok
  | exc
  deriving Repr, DecidableEq

/-- What the terminal did during a `check_connection()` probe. -/
inductive CheckOutcome where
  | unavailable
  | noInfo
  | ok
  | exc (msg : String)
  deriving Repr, DecidableEq

namespace MT5Connection

/-- `connect()` (lines 57-111): each branch's field updates, with the
returned boolean.  No branch raises: failures are encoded in the state. -/
def connect (out : ConnectOutcome) (now : ℕ) (c : MT5Connection) : MT5Connection × Bool :=
  match out with
  | .unavailable =>
    ({ c with
        errorMessage := some "MetaTrader5 module not available",
        connected := false, lastCheck := some now }, false)
  | .initFail =>
    ({ c with
        errorMessage := some ("MT5 initialize() failed for " ++ c.id),
        connected := false, lastCheck := some now }, false)
  | .loginFail err =>
    ({ c with
        errorMessage := some ("Login failed for " ++ c.id ++ ": " ++ err),
        connected := false, lastCheck := some now }, false)
  | .success =>
    ({ c with connected := true, errorMessage := none, lastCheck := some now }, true)
  | .exc msg _ =>
    ({ c with
        errorMessage := some ("Exception during connection: " ++ msg),
        lastError := some msg, connected := false, lastCheck := some now }, false)

/-- `disconnect()` (lines 113-124). -/
def disconnect (d : DiscOutcome) (c : MT5Connection) : MT5Connection :=
  match d with
  | .unavailable => c
  | .ok => { c with connected := false }
  | .exc => c

/-- `check_connection()` (lines 126-158).  Note: the `unavailable` and
`noInfo` branches do not refresh `last_check`, exactly as the code. -/
def checkConnection (out : CheckOutcome) (now : ℕ) (c : MT5Connection) :
    MT5Connection × Bool :=
  match out with
  | .unavailable => ({ c with connected := false }, false)
  | .noInfo =>
    ({ c with
        connected := false,
        errorMessage := some "Connection lost - account_info() returned None" }, false)
  | .ok =>
    ({ c with connected := true, errorMessage := none, lastCheck := some now }, true)
  | .exc msg =>
    ({ c with
        connected := false,
        errorMessage := some ("Connection check failed: " ++ msg),
        lastError := some msg, lastCheck := some now }, false)

/-- `reconnect()` (lines 160-170): `disconnect()`, increment
`reconnect_count` unconditionally, then `connect()`. -/
def reconnect (d : DiscOutcome) (out : ConnectOutcome) (now : ℕ) (c : MT5Connection) :
    MT5Connection × Bool :=
  connect out now
    { disconnect d c with reconnectCount := (disconnect d c).reconnectCount + 1 }

end MT5Connection

/-- Whether the external terminal handle is left initialized (open) by
`connect()` (lines 57-111), given whether it was open before the call:
the module-unavailable branch never touches the terminal; a falsy
`mt5.initialize()` leaves it closed; a falsy `mt5.login()` triggers
`mt5.shutdown()` (line 93), closing it; success leaves it initialized;
an exception leaves it exactly as it stood when the raise happened,
because the `except` branch (lines 105-111) performs no `shutdown()` —
in particular an exception after a successful `initialize()` leaves the
terminal initialized. -/
def terminalOpenAfterConnect (out : ConnectOutcome) (wasOpen : Bool) : Bool :=
  match out with
  | .unavailable => wasOpen
  | .initFail => false
  | .loginFail _ => false
  | .success => true
  | .exc _ afterInit => afterInit

namespace MT5ConnectionPool

/-- `get_connection_by_symbol()` (lines 269-292): symbol-map lookup; on a
miss return `None` with no state change; on a hit with a disconnected
connection perform exactly one `reconnect()` (the connection object is
mutated in place, so the pool's entry is the reconnected state) and
return the connection.  The third component counts the `reconnect()`
calls performed by this operation. -/
def getConnectionBySymbol (pool : List MT5Connection) (sym : String) (d : DiscOutcome)
    (out : ConnectOutcome) (now : ℕ) :
    Option MT5Connection × List MT5Connection × ℕ :=
  match pool.find? fun c => c.symbol == sym with
  | none => (none, pool, 0)
  | some c =>
    if c.connected then (some c, pool, 0)
    else
      (some (MT5Connection.reconnect d out now c).1,
        pool.map fun x =>
          if x.symbol == sym then (MT5Connection.reconnect d out now c).1 else x,
        1)

/-- `check_all_connections()` (lines 306-317): run `check_connection()`
on every owned connection (the per-connection probe outcome is given by
`env`) and keep the updated states. -/
def checkAllConnections (env : MT5Connection → CheckOutcome) (now : ℕ)
    (pool : List MT5Connection) : List MT5Connection :=
  pool.map fun c => (MT5Connection.checkConnection (env c) now c).1

/-- The aggregation of `get_health_summary()` (lines 333-339). -/
def healthStatus (total connected : ℕ) : String :=
  if connected = 0 then "error"
  else if connected < total then "degraded"
  else "ok"

/-- The health summary record (`status`, counts, per-terminal states). -/
structure HealthSummary where
  status : String
  totalTerminals : ℕ
  connectedTerminals : ℕ
  terminals : List MT5Connection
  deriving Repr, DecidableEq

/-- `get_health_summary()` (lines 319-347): check every connection, then
report counts and the aggregate status. -/
def getHealthSummary (env : MT5Connection → CheckOutcome) (now : ℕ)
    (pool : List MT5Connection) : HealthSummary :=
  ⟨healthStatus pool.length ((checkAllConnections env now pool).countP (·.connected)),
    pool.length,
    (checkAllConnections env now pool).countP (·.connected),
    checkAllConnections env now pool⟩

end MT5ConnectionPool

/-- C6.  `get_connection_by_symbol`: (i) on an unconfigured symbol the
result is `None`, the pool is unchanged and no `reconnect()` happens;
(ii) on a configured symbol whose connection is already connected, the
connection is returned as is, with no state change and no `reconnect()`;
(iii) on a configured symbol whose connection is not connected, exactly
one `reconnect()` runs before the (reconnected) connection is returned,
and that single call bumps `reconnect_count` by exactly one. -/
theorem pool_lookup_frame_and_reconnect :
    (∀ (pool : List MT5Connection) (sym : String) (d : DiscOutcome) (out : ConnectOutcome)
      (now : ℕ), pool.find? (fun c => c.symbol == sym) = none →
        MT5ConnectionPool.getConnectionBySymbol pool sym d out now = (none, pool, 0)) ∧
    (∀ (pool : List MT5Connection) (sym : String) (d : DiscOutcome) (out : ConnectOutcome)
      (now : ℕ) (c : MT5Connection), pool.find? (fun c => c.symbol == sym) = some c →
      c.connected = true →
        MT5ConnectionPool.getConnectionBySymbol pool sym d out now = (some c, pool, 0)) ∧
    (∀ (pool : List MT5Connection) (sym : String) (d : DiscOutcome) (out : ConnectOutcome)
      (now : ℕ) (c : MT5Connection), pool.find? (fun c => c.symbol == sym) = some c →
      c.connected = false →
        (MT5ConnectionPool.getConnectionBySymbol pool sym d out now).2.2 = 1 ∧
        (MT5ConnectionPool.getConnectionBySymbol pool sym d out now).1 =
          some (MT5Connection.reconnect d out now c).1 ∧
        (MT5Connection.reconnect d out now c).1.reconnectCount = c.reconnectCount + 1) := by
  refine ⟨fun pool sym d out now h => ?_, fun pool sym d out now c h hc => ?_,
    fun pool sym d out now c h hc => ⟨?_, ?_, ?_⟩⟩
  · unfold MT5ConnectionPool.getConnectionBySymbol
    rw [h]
  · unfold MT5ConnectionPool.getConnectionBySymbol
    rw [h]
    simp [hc]
  · unfold MT5ConnectionPool.getConnectionBySymbol
    rw [h]
    simp [hc]
  · unfold MT5ConnectionPool.getConnectionBySymbol
    rw [h]
    simp [hc]
  · cases d <;> cases out <;> rfl

/-- A connected and a disconnected connection for witnesses. -/
def connOk : MT5Connection :=
  ⟨"MT5_1", "XAUUSD", true, none, none, none, 0⟩

def connDown : MT5Connection :=
  ⟨"MT5_2", "EURUSD", false, none, none, none, 3⟩

def pool2 : List MT5Connection :=
  [connOk, connDown]

/-- Witness for C6 on a concrete two-connection pool: a miss, a hit on a
connected symbol, and a hit on a disconnected symbol. -/
theorem pool_lookup_frame_and_reconnect_witness :
    MT5ConnectionPool.getConnectionBySymbol pool2 "GBPUSD" DiscOutcome.ok
        ConnectOutcome.success 7 = (none, pool2, 0) ∧
    MT5ConnectionPool.getConnectionBySymbol pool2 "XAUUSD" DiscOutcome.ok
        ConnectOutcome.success 7 = (some connOk, pool2, 0) ∧
    (MT5ConnectionPool.getConnectionBySymbol pool2 "EURUSD" DiscOutcome.ok
        ConnectOutcome.success 7).2.2 = 1 :=
  ⟨pool_lookup_frame_and_reconnect.1 pool2 "GBPUSD" DiscOutcome.ok
      ConnectOutcome.success 7 (by decide),
    pool_lookup_frame_and_reconnect.2.1 pool2 "XAUUSD" DiscOutcome.ok
      ConnectOutcome.success 7 connOk (by decide) (by decide),
    (pool_lookup_frame_and_reconnect.2.2 pool2 "EURUSD" DiscOutcome.ok
      ConnectOutcome.success 7 connDown (by decide) (by decide)).1⟩

/-- Counterexample to C8 as stated: an exception raised after a
successful `mt5.initialize()` (here during login, on a closed terminal
beforehand) makes `connect()` fail — the returned flag is `false` and
the state records the error — yet the terminal handle is left
initialized, NOT closed: the `except` branch performs no `shutdown()`. -/
theorem connect_leaves_open_counterexample :
    (MT5Connection.connect (ConnectOutcome.exc "login raised" true) 0 connDown).2 = false ∧
    (MT5Connection.connect
      (ConnectOutcome.exc "login raised" true) 0 connDown).1.connected = false ∧
    terminalOpenAfterConnect (ConnectOutcome.exc "login raised" true) false = true :=
  ⟨rfl, rfl, rfl⟩

/-- C8 amended.  `connect()` is total (no exception escapes: every oracle
outcome yields a state, failures encoded in it); the resulting
`connected` flag equals the returned success boolean, and
`error_message` (the spec's `lastError`) is cleared exactly on success
and holds a recorded message exactly on failure.  The terminal handle is
left open exactly on success, on an exception raised after a successful
`initialize()` (no `shutdown()` runs in the `except` branch), or on the
module-unavailable branch when it was already open — so every failure
path leaves the connection closed EXCEPT the exception-after-initialize
path. -/
theorem connect_state_encoding_amended (out : ConnectOutcome) (now : ℕ)
    (c : MT5Connection) (wasOpen : Bool) :
    ((MT5Connection.connect out now c).1.connected = (MT5Connection.connect out now c).2 ∧
     (MT5Connection.connect out now c).1.errorMessage.isNone =
       (MT5Connection.connect out now c).2) ∧
    (terminalOpenAfterConnect out wasOpen = true ↔
      out = ConnectOutcome.success ∨ (∃ msg, out = ConnectOutcome.exc msg true) ∨
        (out = ConnectOutcome.unavailable ∧ wasOpen = true)) := by
  refine ⟨by cases out <;> exact ⟨rfl, rfl⟩, ?_⟩
  cases out <;> simp [terminalOpenAfterConnect]

/-- C7 amended and counts.  `get_health_summary` reports
`total_terminals` = the size of the owned connection set and
`connected_terminals` = the number of its connected members after the
liveness checks; status is "error" when none are connected (including
the empty pool), "degraded" when some but not all are, and "ok" when the
pool is NONEMPTY and all are connected (the vacuous all-connected empty
pool reports "error", not "ok"). -/
theorem health_summary_states_amended (env : MT5Connection → CheckOutcome) (now : ℕ)
    (pool : List MT5Connection) :
    ((MT5ConnectionPool.getHealthSummary env now pool).totalTerminals = pool.length ∧
     (MT5ConnectionPool.getHealthSummary env now pool).connectedTerminals =
       ((MT5ConnectionPool.checkAllConnections env now pool).filter (·.connected)).length) ∧
    ((∀ c ∈ MT5ConnectionPool.checkAllConnections env now pool, c.connected = false) →
      (MT5ConnectionPool.getHealthSummary env now pool).status = "error") ∧
    (((∃ c ∈ MT5ConnectionPool.checkAllConnections env now pool, c.connected = true) ∧
      (∃ c ∈ MT5ConnectionPool.checkAllConnections env now pool, c.connected = false)) →
      (MT5ConnectionPool.getHealthSummary env now pool).status = "degraded") ∧
    (pool ≠ [] →
      (∀ c ∈ MT5ConnectionPool.checkAllConnections env now pool, c.connected = true) →
      (MT5ConnectionPool.getHealthSummary env now pool).status = "ok") := by
  have hlen : (MT5ConnectionPool.checkAllConnections env now pool).length = pool.length :=
    List.length_map _ _
  refine ⟨⟨rfl, List.countP_eq_length_filter _ _⟩, fun hnone => ?_, fun hmix => ?_,
    fun hne hall => ?_⟩
  · show MT5ConnectionPool.healthStatus _ _ = _
    have h0 : (MT5ConnectionPool.checkAllConnections env now pool).countP (·.connected) = 0 :=
      List.countP_eq_zero.mpr fun a ha => by simp [hnone a ha]
    unfold MT5ConnectionPool.healthStatus
    rw [h0, if_pos rfl]
  · obtain ⟨⟨c₁, hc₁m, hc₁⟩, ⟨c₂, hc₂m, hc₂⟩⟩ := hmix
    show MT5ConnectionPool.healthStatus _ _ = _
    have hpos : 0 < (MT5ConnectionPool.checkAllConnections env now pool).countP (·.connected) :=
      List.countP_pos_iff.mpr ⟨c₁, hc₁m, by simp [hc₁]⟩
    have hlt : (MT5ConnectionPool.checkAllConnections env now pool).countP (·.connected) <
        pool.length := by
      rcases lt_or_eq_of_le (List.countP_le_length (·.connected)
          (l := MT5ConnectionPool.checkAllConnections env now pool)) with h | h
      · omega
      · exact absurd ((List.countP_eq_length.mp h c₂ hc₂m)) (by simp [hc₂])
    unfold MT5ConnectionPool.healthStatus
    rw [if_neg (by omega), if_pos hlt]
  · show MT5ConnectionPool.healthStatus _ _ = _
    have heq : (MT5ConnectionPool.checkAllConnections env now pool).countP (·.connected) =
        pool.length := by
      rw [← hlen]
      exact List.countP_eq_length.mpr fun a ha => by simp [hall a ha]
    have hpos : 0 < pool.length := List.length_pos.mpr hne
    unfold MT5ConnectionPool.healthStatus
    rw [heq, if_neg (by omega), if_neg (by omega)]

/-- A three-connection pool and a probe environment under which exactly
the EURUSD terminal fails its liveness check. -/
def pool3 : List MT5Connection :=
  [⟨"MT5_1", "XAUUSD", true, none, none, none, 0⟩,
   ⟨"MT5_2", "EURUSD", true, none, none, none, 0⟩,
   ⟨"MT5_3", "BTCUSD", false, none, none, none, 0⟩]

def envEurDown : MT5Connection → CheckOutcome :=
  fun c => if c.symbol == "EURUSD" then CheckOutcome.noInfo else CheckOutcome.ok

/-- Witness for the amended C7: on `pool3` under `envEurDown`, 2 of 3
terminals pass the check and the summary is "degraded" with matching
counts. -/
theorem health_summary_states_amended_witness :
    (MT5ConnectionPool.getHealthSummary envEurDown 0 pool3).totalTerminals = pool3.length ∧
    (MT5ConnectionPool.getHealthSummary envEurDown 0 pool3).status = "degraded" :=
  ⟨(health_summary_states_amended envEurDown 0 pool3).1.1,
    (health_summary_states_amended envEurDown 0 pool3).2.2.1
      ⟨⟨(MT5ConnectionPool.checkAllConnections envEurDown 0 pool3).getD 0 default,
          by decide, by decide⟩,
        ⟨(MT5ConnectionPool.checkAllConnections envEurDown 0 pool3).getD 1 default,
          by decide, by decide⟩⟩⟩

/-- The liveness environment in which every probe succeeds. -/
def envAllOk : MT5Connection → CheckOutcome :=
  fun _ => CheckOutcome.ok

/-- Counterexample to C7 as stated: on the empty pool every connection is
(vacuously) connected — the check pass returns the empty list — yet the
summary status is "error", not "ok": the `connected == 0` branch wins. -/
theorem health_vacuous_ok_counterexample :
    MT5ConnectionPool.checkAllConnections envAllOk 0 [] = [] ∧
    MT5ConnectionPool.getHealthSummary envAllOk 0 [] = ⟨"error", 0, 0, []⟩ ∧
    "error" ≠ "ok" :=
  ⟨rfl, rfl, by decide⟩

/-- C10.  For the empty pool, `get_health_summary` reports status
"error" with `total_terminals = 0` and `connected_terminals = 0`; the
"ok" branch is unreachable because `connected == 0` is tested first. -/
theorem health_summary_empty_pool (env : MT5Connection → CheckOutcome) (now : ℕ) :
    MT5ConnectionPool.getHealthSummary env now [] = ⟨"error", 0, 0, []⟩ :=
  rfl

/-- Witness for C4: the angle computation instantiated at a concrete
pair, in both orders. -/
theorem diagonal_angle_bound_and_symmetry_witness :
    angleDeg ⟨0, 1, true⟩ ⟨3600, 2, false⟩ = angleDeg ⟨3600, 2, false⟩ ⟨0, 1, true⟩ :=
  diagonal_angle_bound_and_symmetry.2.1 ⟨0, 1, true⟩ ⟨3600, 2, false⟩

/-- Witness for the amended C8: `connect()` at a concrete connection,
the success outcome, and a closed terminal. -/
theorem connect_state_encoding_amended_witness :
    ((MT5Connection.connect ConnectOutcome.success 0 connOk).1.connected =
        (MT5Connection.connect ConnectOutcome.success 0 connOk).2 ∧
      (MT5Connection.connect ConnectOutcome.success 0 connOk).1.errorMessage.isNone =
        (MT5Connection.connect ConnectOutcome.success 0 connOk).2) ∧
    (terminalOpenAfterConnect ConnectOutcome.success false = true ↔
      ConnectOutcome.success = ConnectOutcome.success ∨
        (∃ msg, ConnectOutcome.success = ConnectOutcome.exc msg true) ∨
        (ConnectOutcome.success = ConnectOutcome.unavailable ∧ false = true)) :=
  connect_state_encoding_amended ConnectOutcome.success 0 connOk false

/-- Witness for C10: the empty-pool summary under a concrete probe
environment. -/
theorem health_summary_empty_pool_witness :
    MT5ConnectionPool.getHealthSummary envAllOk 0 [] = ⟨"error", 0, 0, []⟩ :=
  health_summary_empty_pool envAllOk 0
